import Mathlib

/-!
Shallow embedding of `models/tsodyks3_synapse.h` from the NEST simulator:
the `tsodyks3_synapse` short-term plasticity connection model.  The
per-connection state is the seven `double` fields of the C++ class; the two
operations the claims concern are `send` (named `on_spike` in the spec) and
`set_status` (named `configure` in the spec).  The `double` arithmetic of the
source is embedded over `ℝ`, with `std::exp` as `Real.exp`.
-/

namespace Tsodyks3

/-- The per-connection state: the seven `double` member fields of
`tsodyks3_synapse` (`weight_`, `U_`, `u_`, `x_`, `tau_rec_`, `tau_fac_`,
`t_lastspike_`). -/
structure SynState where
  weight : ℝ
  U : ℝ
  u : ℝ
  x : ℝ
  tau_rec : ℝ
  tau_fac : ℝ
  t_lastspike : ℝ

/-- The default constructor `tsodyks3_synapse()`:
`weight_(1.0), U_(0.5), u_(U_), x_(1.0), tau_rec_(800.0), tau_fac_(0.0),
t_lastspike_(0.0)`. -/
def default_synapse : SynState where
  weight := 1
  U := 0.5
  u := 0.5
  x := 1
  tau_rec := 800
  tau_fac := 0
  t_lastspike := 0

/-- Result of one `send` call: the updated state together with the weight
attached to the outgoing event by `e.set_weight( weight_ * x_ * u_ )`. -/
structure SpikeResult where
  st : SynState
  emitted : ℝ

/-- The local `double x_decay = std::exp( -h / tau_rec_ )` of `send`. -/
noncomputable def x_decay (h tau_rec : ℝ) : ℝ := Real.exp (-h / tau_rec)

/-- The local
`double u_decay = ( tau_fac_ < 1.0e-10 ) ? 0.0 : std::exp( -h / tau_fac_ )`
of `send`. -/
noncomputable def u_decay (h tau_fac : ℝ) : ℝ :=
  if tau_fac < 1.0e-10 then 0 else Real.exp (-h / tau_fac)

/-- The body of `tsodyks3_synapse::send`, in the source's order:
`h = t_spike - t_lastspike_`; the two decay factors; `x_ = 1 + (x_-1)*x_decay`;
`u_ = U_ + (u_-U_)*u_decay`; `u_ += U_*(1-u_)`; the event is emitted with
weight `weight_ * x_ * u_`; then `x_ -= u_ * x_`; then
`t_lastspike_ = t_spike`.  Event plumbing (receiver, delay steps, rport) is
outside the state and not modelled. -/
noncomputable def on_spike (t_spike : ℝ) (s : SynState) : SpikeResult :=
  let h := t_spike - s.t_lastspike
  let xd := x_decay h s.tau_rec
  let ud := u_decay h s.tau_fac
  let x1 := 1 + (s.x - 1) * xd
  let u1 := s.U + (s.u - s.U) * ud
  let u2 := u1 + s.U * (1 - u1)
  let w := s.weight * x1 * u2
  let x2 := x1 - u2 * x1
  { st := { s with u := u2, x := x2, t_lastspike := t_spike }, emitted := w }

/-- The value of `x_` after the decay line `x_ = 1. + (x_ - 1.) * x_decay`
(post-decay, pre-depletion resources). -/
noncomputable def x_after_decay (t_spike : ℝ) (s : SynState) : ℝ :=
  1 + (s.x - 1) * x_decay (t_spike - s.t_lastspike) s.tau_rec

/-- The value of `u_` after the decay line `u_ = U_ + (u_ - U_) * u_decay`
(pre-facilitation release probability). -/
noncomputable def u_after_decay (t_spike : ℝ) (s : SynState) : ℝ :=
  s.U + (s.u - s.U) * u_decay (t_spike - s.t_lastspike) s.tau_fac

/-- The value of `u_` after the facilitation line `u_ += U_ * (1. - u_)`
(post-facilitation release probability). -/
noncomputable def u_after_fac (t_spike : ℝ) (s : SynState) : ℝ :=
  u_after_decay t_spike s + s.U * (1 - u_after_decay t_spike s)

/-- A hypothetical reordering of `send` in which the depletion
`x_ -= u_ * x_` is applied before the event weight is computed, so the weight
uses the post-depletion `x_`.  Used to show the source's ordering is
load-bearing. -/
noncomputable def on_spike_depleteFirst (t_spike : ℝ) (s : SynState) : SpikeResult :=
  let h := t_spike - s.t_lastspike
  let xd := x_decay h s.tau_rec
  let ud := u_decay h s.tau_fac
  let x1 := 1 + (s.x - 1) * xd
  let u1 := s.U + (s.u - s.U) * ud
  let u2 := u1 + s.U * (1 - u1)
  let x2 := x1 - u2 * x1
  let w := s.weight * x2 * u2
  { st := { s with u := u2, x := x2, t_lastspike := t_spike }, emitted := w }

/-- Deliver a sequence of spikes, threading the state through `on_spike`. -/
noncomputable def run_spikes (s : SynState) : List ℝ → SynState
  | [] => s
  | t :: ts => run_spikes (on_spike t s).st ts

/-- Parameter validity as the spec states it: `U, u, x ∈ [0,1]`,
`tau_rec > 0`, `tau_fac ≥ 0`. -/
def ValidState (s : SynState) : Prop :=
  0 ≤ s.U ∧ s.U ≤ 1 ∧ 0 ≤ s.u ∧ s.u ≤ 1 ∧ 0 ≤ s.x ∧ s.x ≤ 1 ∧
    0 < s.tau_rec ∧ 0 ≤ s.tau_fac

/-- One step of spike delivery preserves validity: from a valid state and a
spike no earlier than the last one, `on_spike` leaves `u` and `x` in `[0,1]`
(the parameters are untouched). -/
theorem on_spike_preserves_valid (t : ℝ) (s : SynState)
    (hs : ValidState s) (ht : s.t_lastspike ≤ t) :
    ValidState (on_spike t s).st := by
  obtain ⟨hU0, hU1, hu0, hu1, hx0, hx1, hrec, hfac⟩ := hs
  have hh : 0 ≤ t - s.t_lastspike := by linarith
  have hxd0 : 0 < x_decay (t - s.t_lastspike) s.tau_rec := Real.exp_pos _
  have hxd1 : x_decay (t - s.t_lastspike) s.tau_rec ≤ 1 := by
    unfold x_decay
    rw [Real.exp_le_one_iff]
    have : 0 ≤ (t - s.t_lastspike) / s.tau_rec := div_nonneg hh hrec.le
    linarith [neg_div (s.tau_rec) (t - s.t_lastspike)]
  have hud0 : 0 ≤ u_decay (t - s.t_lastspike) s.tau_fac := by
    unfold u_decay
    split
    · exact le_refl 0
    · exact (Real.exp_pos _).le
  have hud1 : u_decay (t - s.t_lastspike) s.tau_fac ≤ 1 := by
    unfold u_decay
    split
    · norm_num
    · rename_i hge
      rw [Real.exp_le_one_iff]
      push_neg at hge
      have hpos : (0:ℝ) < s.tau_fac := lt_of_lt_of_le (by norm_num) hge
      have : 0 ≤ (t - s.t_lastspike) / s.tau_fac := div_nonneg hh hpos.le
      linarith [neg_div (s.tau_fac) (t - s.t_lastspike)]
  set xd := x_decay (t - s.t_lastspike) s.tau_rec with hxd
  set ud := u_decay (t - s.t_lastspike) s.tau_fac with hud
  have hx1' : 0 ≤ 1 + (s.x - 1) * xd ∧ 1 + (s.x - 1) * xd ≤ 1 := by
    constructor <;> nlinarith
  have hu1' : 0 ≤ s.U + (s.u - s.U) * ud ∧ s.U + (s.u - s.U) * ud ≤ 1 := by
    constructor <;> nlinarith
  set u1 := s.U + (s.u - s.U) * ud with hu1d
  have hu2' : 0 ≤ u1 + s.U * (1 - u1) ∧ u1 + s.U * (1 - u1) ≤ 1 := by
    constructor <;> nlinarith [hu1'.1, hu1'.2]
  set u2 := u1 + s.U * (1 - u1) with hu2d
  set x1 := 1 + (s.x - 1) * xd with hx1d
  have hx2' : 0 ≤ x1 - u2 * x1 ∧ x1 - u2 * x1 ≤ 1 := by
    constructor <;> nlinarith [hx1'.1, hx1'.2, hu2'.1, hu2'.2]
  simp only [on_spike, ValidState]
  refine ⟨hU0, hU1, ?_, ?_, ?_, ?_, hrec, hfac⟩
  · exact hu2'.1
  · exact hu2'.2
  · exact hx2'.1
  · exact hx2'.2

/-- `send` records the spike time: `t_lastspike_ = t_spike`. -/
theorem on_spike_t_lastspike (t : ℝ) (s : SynState) :
    (on_spike t s).st.t_lastspike = t := rfl

/-- C1: for every state with valid parameters (`U`, `u`, `x` in `[0,1]`,
`tau_rec > 0`, `tau_fac ≥ 0`) and every non-decreasing sequence of spike
timestamps (each `t_spike ≥ t_last_spike`), after every `on_spike` call the
fields `u` and `x` are still in `[0,1]`; `on_spike` applies no clamping, the
invariant follows from the update formulas alone.  Quantifying over all
admissible spike lists covers every prefix, hence the state after every
call. -/
theorem u_x_invariant_preserved (s : SynState) (ts : List ℝ)
    (hs : ValidState s) (hts : List.Chain (· ≤ ·) s.t_lastspike ts) :
    ValidState (run_spikes s ts) := by
  induction ts generalizing s with
  | nil => exact hs
  | cons t ts ih =>
    rcases List.chain_cons.mp hts with ⟨h1, h2⟩
    exact ih _ (on_spike_preserves_valid t s hs h1) h2

/-- Witness for C1 at the default state and the spike sequence `[0, 800]`. -/
theorem u_x_invariant_preserved_witness :
    ValidState default_synapse ∧
      List.Chain (· ≤ ·) default_synapse.t_lastspike [0, 800] ∧
      ValidState (run_spikes default_synapse [0, 800]) := by
  have h1 : ValidState default_synapse := by
    unfold ValidState default_synapse
    norm_num
  have h2 : List.Chain (· ≤ ·) default_synapse.t_lastspike [0, 800] := by
    unfold default_synapse
    simp only [List.chain_cons, List.Chain.nil]
    norm_num
  exact ⟨h1, h2, u_x_invariant_preserved _ _ h1 h2⟩

/-- C9: `send` mutates only `u_`, `x_` and `t_lastspike_`: the fields
`weight_`, `U_`, `tau_rec_` and `tau_fac_` are unchanged by every call. -/
theorem on_spike_frame (t : ℝ) (s : SynState) :
    (on_spike t s).st.weight = s.weight ∧ (on_spike t s).st.U = s.U ∧
      (on_spike t s).st.tau_rec = s.tau_rec ∧
      (on_spike t s).st.tau_fac = s.tau_fac :=
  ⟨rfl, rfl, rfl, rfl⟩

/-- C3: the weight attached to the emitted event is
`weight * x * u` with the post-facilitation `u` and the post-decay,
pre-depletion `x`; the depletion `x_ -= u_ * x_` happens only after the
weight is computed, and `t_lastspike_` is then set to `t_spike`.  Computing
the depletion before the weight (`on_spike_depleteFirst`) changes the
numeric result, shown at the default state with a spike at `t = 0`. -/
theorem emitted_weight_ordering (t : ℝ) (s : SynState) :
    (on_spike t s).emitted = s.weight * x_after_decay t s * u_after_fac t s ∧
      (on_spike t s).st.x
        = x_after_decay t s - u_after_fac t s * x_after_decay t s ∧
      (on_spike t s).st.t_lastspike = t ∧
      (on_spike 0 default_synapse).emitted
        ≠ (on_spike_depleteFirst 0 default_synapse).emitted := by
  refine ⟨rfl, rfl, rfl, ?_⟩
  norm_num [on_spike, on_spike_depleteFirst, u_decay, x_decay, default_synapse,
    Real.exp_zero]

/-- A state violating the universally quantified form of the spec's
`h = 0` identity: facilitation is disabled (`tau_fac = 0`) and the release
probability sits above its baseline (`u = 0.75 ≠ U = 0.5`). -/
def cexState : SynState where
  weight := 1
  U := 0.5
  u := 0.75
  x := 1
  tau_rec := 800
  tau_fac := 0
  t_lastspike := 0

/-- C5 counterexample: at `cexState` a spike at `t = 0` has `h = 0`, yet
`u_decay` is `0`, not `1` (the `tau_fac_ < 1.0e-10` guard fires), and the
pre-facilitation `u` is the baseline `U = 0.5`, not the pre-call
`u = 0.75`. -/
theorem h_zero_decay_counterexample :
    (0 : ℝ) - cexState.t_lastspike = 0 ∧
      u_decay (0 - cexState.t_lastspike) cexState.tau_fac ≠ 1 ∧
      u_after_decay 0 cexState ≠ cexState.u := by
  norm_num [u_decay, u_after_decay, cexState]

/-- C5 amended: for every state, a spike with
`h = t_spike - t_last_spike = 0` gives `x_decay = 1`, so the value of `x`
just before facilitation equals its pre-call value exactly; `u_decay = 1`
and the corresponding identity for `u` additionally require
`tau_fac ≥ 1e-10` (below the threshold the code sets `u_decay = 0`). -/
theorem h_zero_decay_identity (t : ℝ) (s : SynState)
    (hh : t = s.t_lastspike) :
    x_decay (t - s.t_lastspike) s.tau_rec = 1 ∧
      x_after_decay t s = s.x ∧
      (1.0e-10 ≤ s.tau_fac →
        u_decay (t - s.t_lastspike) s.tau_fac = 1 ∧
        u_after_decay t s = s.u) := by
  subst hh
  have hx : x_decay (s.t_lastspike - s.t_lastspike) s.tau_rec = 1 := by
    simp [x_decay]
  refine ⟨hx, ?_, fun hf => ?_⟩
  · unfold x_after_decay
    rw [hx]
    ring
  · have hu : u_decay (s.t_lastspike - s.t_lastspike) s.tau_fac = 1 := by
      unfold u_decay
      rw [if_neg (not_lt.mpr hf)]
      simp
    refine ⟨hu, ?_⟩
    unfold u_after_decay
    rw [hu]
    ring

/-- A concrete state with facilitation enabled (`tau_fac = 800`) and a
nonzero last-spike time, used to witness the `h = 0` identities. -/
def facState : SynState where
  weight := 1
  U := 0.5
  u := 0.75
  x := 0.5
  tau_rec := 800
  tau_fac := 800
  t_lastspike := 3

/-- Witness for the amended C5 at `facState` with a repeated spike at
`t = 3`. -/
theorem h_zero_decay_identity_witness :
    (3 : ℝ) = facState.t_lastspike ∧
      (x_decay (3 - facState.t_lastspike) facState.tau_rec = 1 ∧
        x_after_decay 3 facState = facState.x ∧
        (1.0e-10 ≤ facState.tau_fac →
          u_decay (3 - facState.t_lastspike) facState.tau_fac = 1 ∧
          u_after_decay 3 facState = facState.u)) :=
  ⟨by norm_num [facState], h_zero_decay_identity 3 facState (by norm_num [facState])⟩

/-- With `u_decay = 0`, the decay line resets `u_` to `U_` and the
facilitation line then yields `U_ + U_ * (1 - U_)`. -/
theorem on_spike_u_of_decay_zero (t : ℝ) (s : SynState)
    (h : u_decay (t - s.t_lastspike) s.tau_fac = 0) :
    (on_spike t s).st.u = s.U + s.U * (1 - s.U) := by
  simp only [on_spike, h]
  ring

/-- C6: `u_decay` is `0` whenever `tau_fac < 1e-10` (the `exp(-h/tau_fac)`
branch is not taken below the threshold) and is `exp(-h/tau_fac)` at or
above it; in particular with `tau_fac = 0` (or any sub-threshold value)
every call leaves `u = U + U*(1-U)`, independent of the previous `u`. -/
theorem u_decay_guard (t v tf : ℝ) (s : SynState)
    (h : s.tau_fac < 1.0e-10) (h2 : 1.0e-10 ≤ tf) :
    u_decay (t - s.t_lastspike) s.tau_fac = 0 ∧
      u_decay (t - s.t_lastspike) tf = Real.exp (-(t - s.t_lastspike) / tf) ∧
      (on_spike t s).st.u = s.U + s.U * (1 - s.U) ∧
      (on_spike t { s with u := v }).st.u = (on_spike t s).st.u := by
  have hud : u_decay (t - s.t_lastspike) s.tau_fac = 0 := by
    unfold u_decay
    rw [if_pos h]
  refine ⟨hud, ?_, on_spike_u_of_decay_zero t s hud, ?_⟩
  · unfold u_decay
    rw [if_neg (not_lt.mpr h2)]
  · have h' : u_decay (t - SynState.t_lastspike { s with u := v })
        (SynState.tau_fac { s with u := v }) = 0 := hud
    rw [on_spike_u_of_decay_zero t { s with u := v } h',
      on_spike_u_of_decay_zero t s hud]

/-- Witness for C6: the default synapse (`tau_fac = 0`) against the
threshold value `tf = 800`, spike at `t = 5`, alternative `u = 0.3`. -/
theorem u_decay_guard_witness :
    default_synapse.tau_fac < 1.0e-10 ∧ (1.0e-10 : ℝ) ≤ 800 ∧
      (u_decay (5 - default_synapse.t_lastspike) default_synapse.tau_fac = 0 ∧
        u_decay (5 - default_synapse.t_lastspike) 800
          = Real.exp (-(5 - default_synapse.t_lastspike) / 800) ∧
        (on_spike 5 default_synapse).st.u
          = default_synapse.U + default_synapse.U * (1 - default_synapse.U) ∧
        (on_spike 5 { default_synapse with u := 0.3 }).st.u
          = (on_spike 5 default_synapse).st.u) :=
  ⟨by norm_num [default_synapse], by norm_num,
    u_decay_guard 5 0.3 800 default_synapse (by norm_num [default_synapse])
      (by norm_num)⟩

/-- C2: from the default-constructed state, a spike at `t = 0` emits
effective weight `0.75` and leaves `x = 0.25`, `u = 0.75`,
`t_lastspike = 0`; a second spike at `t = 800` from that state emits
exactly `0.75 * (1 + (0.25 - 1) * exp (-1))`, which lies in
`(0.543, 0.5431)`, and leaves `u = 0.75` and `x` in `(0.181, 0.1811)`. -/
theorem default_two_spike_scenario :
    (on_spike 0 default_synapse).emitted = 0.75 ∧
      (on_spike 0 default_synapse).st.x = 0.25 ∧
      (on_spike 0 default_synapse).st.u = 0.75 ∧
      (on_spike 0 default_synapse).st.t_lastspike = 0 ∧
      (on_spike 800 (on_spike 0 default_synapse).st).emitted
        = 0.75 * (1 + (0.25 - 1) * Real.exp (-1)) ∧
      0.543 < (on_spike 800 (on_spike 0 default_synapse).st).emitted ∧
      (on_spike 800 (on_spike 0 default_synapse).st).emitted < 0.5431 ∧
      (on_spike 800 (on_spike 0 default_synapse).st).st.u = 0.75 ∧
      0.181 < (on_spike 800 (on_spike 0 default_synapse).st).st.x ∧
      (on_spike 800 (on_spike 0 default_synapse).st).st.x < 0.1811 := by
  have hst : (on_spike 0 default_synapse).st = ⟨1, 0.5, 0.75, 0.25, 800, 0, 0⟩ := by
    norm_num [on_spike, default_synapse, u_decay, x_decay, Real.exp_zero,
      SynState.mk.injEq]
  have h1 : (on_spike 0 default_synapse).emitted = 0.75 := by
    norm_num [on_spike, default_synapse, u_decay, x_decay, Real.exp_zero]
  have hE1 : Real.exp (-1) * Real.exp 1 = 1 := by
    rw [← Real.exp_add]
    norm_num
  have hEpos : (0:ℝ) < Real.exp (-1) := Real.exp_pos _
  have m1 : 1 < Real.exp (-1) * 2.7182818286 := by
    calc (1:ℝ) = Real.exp (-1) * Real.exp 1 := hE1.symm
    _ < Real.exp (-1) * 2.7182818286 :=
      mul_lt_mul_of_pos_left Real.exp_one_lt_d9 hEpos
  have m2 : Real.exp (-1) * 2.7182818283 < 1 := by
    calc Real.exp (-1) * 2.7182818283 < Real.exp (-1) * Real.exp 1 :=
      mul_lt_mul_of_pos_left Real.exp_one_gt_d9 hEpos
    _ = 1 := hE1
  have hb1 : (0.3678794 : ℝ) < Real.exp (-1) := by linarith
  have hb2 : Real.exp (-1) < 0.3678795 := by linarith
  rw [hst, h1]
  refine ⟨rfl, rfl, rfl, rfl, ?_, ?_, ?_, ?_, ?_, ?_⟩
  · norm_num [on_spike, u_decay, x_decay]
    ring
  · norm_num [on_spike, u_decay, x_decay]
    linarith
  · norm_num [on_spike, u_decay, x_decay]
    linarith
  · norm_num [on_spike, u_decay, x_decay]
  · norm_num [on_spike, u_decay, x_decay]
    linarith
  · norm_num [on_spike, u_decay, x_decay]
    linarith

/-- The optional per-field overrides `set_status` reads from the
dictionary: one `updateValue< double >` per field (keys `names::weight`,
`names::dU`, `names::u`, `names::tau_rec`, `names::tau_fac`,
`names::x`). -/
structure SynOpts where
  weight : Option ℝ
  U : Option ℝ
  u : Option ℝ
  tau_rec : Option ℝ
  tau_fac : Option ℝ
  x : Option ℝ

/-- The `BadProperty` throws of `set_status`, one per validated field. -/
inductive BadProperty where
  | U
  | u
  | tau_rec
  | tau_fac
  | x
  deriving DecidableEq

/-- The message each `BadProperty` throw carries, as in the source. -/
def BadProperty.message : BadProperty → String
  | .U => "U must be in [0,1]."
  | .u => "u must be in [0,1]."
  | .tau_rec => "tau_rec must be > 0."
  | .tau_fac => "tau_fac must be >= 0."
  | .x => "x must be in [0,1]."

/-- `updateValue< double >( d, key, field )`: overwrite the field when the
key is in the dictionary, keep it otherwise. -/
def updateValue (o : Option ℝ) (v : ℝ) : ℝ := o.getD v

/-- The body of `tsodyks3_synapse::set_status`, in the source's order:
update `weight_` (never validated), then for each of `U_`, `u_`,
`tau_rec_`, `tau_fac_`, `x_` in turn update the field and validate it,
throwing `BadProperty` on violation.  A throw aborts the remaining updates
but keeps everything already written: the C++ exception leaves the object
mutated, so the pair returned here carries the partially updated state
together with the error, `none` meaning a normal return.  The base-class
`set_status` call only touches fields outside this state. -/
noncomputable def set_status (d : SynOpts) (s : SynState) :
    SynState × Option BadProperty :=
  let s1 := { s with weight := updateValue d.weight s.weight }
  let s2 := { s1 with U := updateValue d.U s1.U }
  if s2.U > 1 ∨ s2.U < 0 then (s2, some .U) else
  let s3 := { s2 with u := updateValue d.u s2.u }
  if s3.u > 1 ∨ s3.u < 0 then (s3, some .u) else
  let s4 := { s3 with tau_rec := updateValue d.tau_rec s3.tau_rec }
  if s4.tau_rec ≤ 0 then (s4, some .tau_rec) else
  let s5 := { s4 with tau_fac := updateValue d.tau_fac s4.tau_fac }
  if s5.tau_fac < 0 then (s5, some .tau_fac) else
  let s6 := { s5 with x := updateValue d.x s5.x }
  if s6.x > 1 ∨ s6.x < 0 then (s6, some .x) else
  (s6, none)

/-- All supplied overrides applied at once, with no validation: the state a
fully successful `set_status` ends in. -/
def applyAll (d : SynOpts) (s : SynState) : SynState where
  weight := updateValue d.weight s.weight
  U := updateValue d.U s.U
  u := updateValue d.u s.u
  x := updateValue d.x s.x
  tau_rec := updateValue d.tau_rec s.tau_rec
  tau_fac := updateValue d.tau_fac s.tau_fac
  t_lastspike := s.t_lastspike

/-- The range condition `set_status` checks for each validated field. -/
def fieldViolated : BadProperty → SynState → Prop
  | .U, s => s.U > 1 ∨ s.U < 0
  | .u, s => s.u > 1 ∨ s.u < 0
  | .tau_rec, s => s.tau_rec ≤ 0
  | .tau_fac, s => s.tau_fac < 0
  | .x, s => s.x > 1 ∨ s.x < 0

/-- The first violated field in the source's validation order
`U, u, tau_rec, tau_fac, x`, if any. -/
noncomputable def firstViolation (s : SynState) : Option BadProperty :=
  if s.U > 1 ∨ s.U < 0 then some .U
  else if s.u > 1 ∨ s.u < 0 then some .u
  else if s.tau_rec ≤ 0 then some .tau_rec
  else if s.tau_fac < 0 then some .tau_fac
  else if s.x > 1 ∨ s.x < 0 then some .x
  else none

/-- The error `set_status` reports is exactly the first violated field, in
the source's validation order, of the state with all overrides applied. -/
theorem set_status_error_eq (d : SynOpts) (s : SynState) :
    (set_status d s).2 = firstViolation (applyAll d s) := by
  simp only [set_status, firstViolation, applyAll, updateValue]
  split_ifs <;> simp_all

/-- A `set_status` that throws nothing has applied every override. -/
theorem set_status_none_state (d : SynOpts) (s : SynState)
    (h : (set_status d s).2 = none) : (set_status d s).1 = applyAll d s := by
  simp only [set_status] at h ⊢
  split_ifs at h ⊢ <;> simp_all [applyAll, SynState.mk.injEq]

/-- `updateValue` applied twice with the same override is `updateValue`
once. -/
theorem updateValue_idem (o : Option ℝ) (v : ℝ) :
    updateValue o (updateValue o v) = updateValue o v := by
  cases o <;> rfl

/-- Applying a fixed set of overrides is idempotent on the state. -/
theorem applyAll_idem (d : SynOpts) (s : SynState) :
    applyAll d (applyAll d s) = applyAll d s := by
  simp [applyAll, SynState.mk.injEq, updateValue_idem]

/-- C4: `set_status` raises `BadProperty` if and only if, once the supplied
overrides are applied, `U ∉ [0,1]`, `u ∉ [0,1]`, `tau_rec ≤ 0`,
`tau_fac < 0` or `x ∉ [0,1]`; the raised error names a field whose (invalid)
value remains written in the state returned with the throw — no rollback.
With all-valid overrides the error is `none`. -/
theorem set_status_error_characterization (d : SynOpts) (s : SynState) :
    ((set_status d s).2.isSome ↔
      ((applyAll d s).U > 1 ∨ (applyAll d s).U < 0) ∨
      ((applyAll d s).u > 1 ∨ (applyAll d s).u < 0) ∨
      (applyAll d s).tau_rec ≤ 0 ∨
      (applyAll d s).tau_fac < 0 ∨
      ((applyAll d s).x > 1 ∨ (applyAll d s).x < 0)) ∧
    (∀ f, (set_status d s).2 = some f → fieldViolated f (set_status d s).1) := by
  constructor
  · rw [set_status_error_eq]
    unfold firstViolation
    split_ifs <;> simp_all
  · intro f hf
    simp only [set_status] at hf ⊢
    split_ifs at hf ⊢ <;> simp_all [fieldViolated] <;>
      cases hf <;> simp_all [fieldViolated]

/-- C7: `set_status` updates and validates in the fixed order `weight, U, u,
tau_rec, tau_fac, x`: the reported error is the first violated field in that
order; a throw leaves every later field at its pre-call value (its override
is never applied); and `weight` is always written, with no validation (no
`BadProperty` case even exists for it). -/
theorem set_status_order_abort (d : SynOpts) (s : SynState) :
    (set_status d s).2 = firstViolation (applyAll d s) ∧
    (set_status d s).1.weight = updateValue d.weight s.weight ∧
    ((set_status d s).2 = some BadProperty.U →
      (set_status d s).1.u = s.u ∧ (set_status d s).1.tau_rec = s.tau_rec ∧
      (set_status d s).1.tau_fac = s.tau_fac ∧ (set_status d s).1.x = s.x) ∧
    ((set_status d s).2 = some BadProperty.u →
      (set_status d s).1.tau_rec = s.tau_rec ∧
      (set_status d s).1.tau_fac = s.tau_fac ∧ (set_status d s).1.x = s.x) ∧
    ((set_status d s).2 = some BadProperty.tau_rec →
      (set_status d s).1.tau_fac = s.tau_fac ∧ (set_status d s).1.x = s.x) ∧
    ((set_status d s).2 = some BadProperty.tau_fac →
      (set_status d s).1.x = s.x) := by
  refine ⟨set_status_error_eq d s, ?_, ?_, ?_, ?_, ?_⟩
  · simp only [set_status]
    split_ifs <;> rfl
  all_goals
    intro h
    simp only [set_status] at h ⊢
    split_ifs at h ⊢ <;> simp_all

/-- C8: a `set_status` with a partial set of overrides changes only the
named fields: every field whose override is absent keeps its pre-call
value, and `t_lastspike_` is never modified by `set_status`. -/
theorem set_status_frame (d : SynOpts) (s : SynState) :
    (d.weight = none → (set_status d s).1.weight = s.weight) ∧
    (d.U = none → (set_status d s).1.U = s.U) ∧
    (d.u = none → (set_status d s).1.u = s.u) ∧
    (d.x = none → (set_status d s).1.x = s.x) ∧
    (d.tau_rec = none → (set_status d s).1.tau_rec = s.tau_rec) ∧
    (d.tau_fac = none → (set_status d s).1.tau_fac = s.tau_fac) ∧
    (set_status d s).1.t_lastspike = s.t_lastspike := by
  refine ⟨?_, ?_, ?_, ?_, ?_, ?_, ?_⟩
  all_goals
    first
    | (intro h
       simp only [set_status]
       split_ifs <;> simp_all [updateValue])
    | (simp only [set_status]
       split_ifs <;> rfl)

/-- C10: `set_status` is idempotent on valid inputs: when a call raises no
error, repeating it with the same overrides neither changes the state nor
raises an error. -/
theorem set_status_idempotent (d : SynOpts) (s : SynState)
    (h : (set_status d s).2 = none) :
    set_status d (set_status d s).1 = ((set_status d s).1, none) := by
  have h1 : (set_status d s).1 = applyAll d s := set_status_none_state d s h
  have hfv : firstViolation (applyAll d s) = none := by
    rw [← set_status_error_eq]
    exact h
  have hAA : applyAll d (applyAll d s) = applyAll d s := applyAll_idem d s
  have e2 : (set_status d (applyAll d s)).2 = none := by
    rw [set_status_error_eq, hAA]
    exact hfv
  have e1 : (set_status d (applyAll d s)).1 = applyAll d s := by
    rw [set_status_none_state d _ e2, hAA]
  rw [h1, Prod.ext_iff]
  exact ⟨e1, e2⟩

/-- A full set of in-range overrides, used to witness idempotence. -/
def validOpts : SynOpts where
  weight := some 2
  U := some 0.1
  u := some 0.2
  tau_rec := some 500
  tau_fac := some 20
  x := some 0.9

/-- Witness for C10: the overrides `validOpts` on the default state raise no
error, and repeating the call is the identity. -/
theorem set_status_idempotent_witness :
    (set_status validOpts default_synapse).2 = none ∧
      set_status validOpts (set_status validOpts default_synapse).1
        = ((set_status validOpts default_synapse).1, none) := by
  have h : (set_status validOpts default_synapse).2 = none := by
    norm_num [set_status, updateValue, validOpts, default_synapse]
  exact ⟨h, set_status_idempotent validOpts default_synapse h⟩

end Tsodyks3
